import Mathlib

/-!
Verification of the resilience and authentication core documented in the
mpesajs docs repository.  Definitions are shallow embeddings of the
TypeScript code shown in the documentation pages:

* the `MpesaError` class hierarchy (error-handling guide),
* `retryWithExponentialBackoff` (error-handling guide, retry section),
* `validatePaymentDetails` (error-handling guide, input-validation section),
* `TokenManager.getToken` (authentication guide, best practices),
* `isValidHttpsUrl` (register-url API reference),
* a `RateLimiter` modelled from the specification (its implementation is
  referenced by the docs but not shown).

Machine integers are modelled as `Int`/`Nat` (no overflow is relevant to the
claims), asynchronous operations as explicit state passing, and thrown
exceptions as sum types.
-/

/-- The closed `MpesaError` hierarchy from the error-handling guide: a base
class carrying `name` and `message`, with exactly six subclasses, each
carrying its own optional diagnostic fields. -/
inductive MpesaError where
  | authenticationError (message : String) (errorCode : Option String)
  | networkError (message : String)
  | validationError (message : String) (field : Option String)
  | stkPushError (message : String) (responseCode merchantRequestId checkoutRequestId : Option String)
  | payoutError (message : String) (errorCode requestId responseCode conversationId : Option String)
  | registerUrlError (message : String) (responseCode shortCode : Option String)
deriving DecidableEq, Repr

/-- The `name` property of each error class (the `kind` tag of the taxonomy). -/
def MpesaError.kind : MpesaError → String
  | .authenticationError _ _ => "AuthenticationError"
  | .networkError _ => "NetworkError"
  | .validationError _ _ => "ValidationError"
  | .stkPushError _ _ _ _ => "StkPushError"
  | .payoutError _ _ _ _ _ => "PayoutError"
  | .registerUrlError _ _ _ => "RegisterUrlError"

/-- The `message` property inherited from the base class. -/
def MpesaError.message : MpesaError → String
  | .authenticationError m _ => m
  | .networkError m => m
  | .validationError m _ => m
  | .stkPushError m _ _ _ => m
  | .payoutError m _ _ _ _ => m
  | .registerUrlError m _ _ => m

/-- The six `name` tags of the taxonomy, in declaration order. -/
def mpesaErrorKinds : List String :=
  ["AuthenticationError", "NetworkError", "ValidationError",
   "StkPushError", "PayoutError", "RegisterUrlError"]

/-- The retry condition on line 249-250 of the error-handling guide:
`error instanceof NetworkError || (error instanceof StkPushError && error.responseCode === '17')`. -/
def isRetryable : MpesaError → Bool
  | .networkError _ => true
  | .stkPushError _ (some code) _ _ => code == "17"
  | _ => false

/-- Outcome of one run of `retryWithExponentialBackoff`: a returned value, a
rethrown `MpesaError` from the wrapped operation, or the generic
`new Error('Maximum retry attempts reached')` thrown after the loop. -/
inductive RetryOutcome (α : Type) where
  | ok (a : α)
  | err (e : MpesaError)
  | maxRetriesReached
deriving DecidableEq, Repr

/-- Trace of one run of `retryWithExponentialBackoff`: final outcome, how many
times `operation` was invoked, the values taken by the `delay` variable (in
order), and the actual arguments passed to `setTimeout` (`delay + jitter`). -/
structure RetryResult (α : Type) where
  outcome : RetryOutcome α
  calls : Nat
  delays : List Nat
  sleeps : List ℚ
deriving DecidableEq, Repr

/-- One iteration step of the `while (attempts < maxRetries)` loop of
`retryWithExponentialBackoff`.  `op k` is the result of the `(k+1)`-th
invocation of `operation` (`k` equals the value of `attempts` at the moment of
the call); `jitter n` models the value of `Math.random() * 100` drawn before
the `n`-th backoff sleep.  `remaining` is structural fuel, equal to
`maxRetries - attempts` at every call reachable from `retryWithExponentialBackoff`;
when it is `0` the loop condition has failed and the trailing
`throw new Error('Maximum retry attempts reached')` runs. -/
def retryGo {α : Type} (op : Nat → Except MpesaError α) (maxRetries baseDelay : Nat)
    (jitter : Nat → ℚ) : Nat → Nat → RetryResult α
  | _, 0 => ⟨.maxRetriesReached, 0, [], []⟩
  | attempts, remaining + 1 =>
    if attempts < maxRetries then
      match op attempts with
      | .ok a => ⟨.ok a, 1, [], []⟩
      | .error e =>
        let attempts1 := attempts + 1
        if attempts1 = maxRetries then ⟨.err e, 1, [], []⟩
        else if isRetryable e then
          let delay := baseDelay * 2 ^ (attempts1 - 1)
          let rest := retryGo op maxRetries baseDelay jitter attempts1 remaining
          ⟨rest.outcome, rest.calls + 1, delay :: rest.delays,
            ((delay : ℚ) + jitter attempts1) :: rest.sleeps⟩
        else ⟨.err e, 1, [], []⟩
    else ⟨.maxRetriesReached, 0, [], []⟩

/-- `retryWithExponentialBackoff(operation, maxRetries, baseDelay)` from the
error-handling guide, entered with `attempts = 0`. -/
def retryWithExponentialBackoff {α : Type} (op : Nat → Except MpesaError α)
    (maxRetries baseDelay : Nat) (jitter : Nat → ℚ) : RetryResult α :=
  retryGo op maxRetries baseDelay jitter 0 maxRetries

/-- An operation that fails on every attempt with a `NetworkError`. -/
def alwaysNetworkFail (k : Nat) : Except MpesaError Unit :=
  .error (.networkError ("timeout " ++ toString k))

/-- Zero jitter source, used for concrete evaluations. -/
def zeroJitter (_ : Nat) : ℚ := 0

/-- The cached record of the `TokenManager` best-practices class from the
authentication guide: `{ token, expiresAt }` where `expiresAt` is stored as
`Date.now() + expiresIn * 1000 - 60000`, i.e. the real expiry time minus the
one-minute safety margin (the comment on line 172: `Buffer of 1 minute`).
Times are Unix milliseconds as `Int`. -/
structure TokenData where
  token : String
  expiresAt : Int
deriving DecidableEq, Repr

/-- The 60000 ms safety margin subtracted when the cached record is installed. -/
def tokenMargin : Int := 60000

/-- `TokenManager.getToken` from the authentication guide.  `now` is
`Date.now()`; `fresh = (token, expiresIn)` is the response that
`auth.generateToken()` would return if called.  Returns the token given to the
caller, the cache after the call, and how many times `generateToken` was
invoked (0 or 1). -/
def getToken (now : Int) (fresh : String × Int) (st : Option TokenData) :
    String × Option TokenData × Nat :=
  match st with
  | none =>
    let td := TokenData.mk fresh.1 (now + fresh.2 * 1000 - tokenMargin)
    (td.token, some td, 1)
  | some td =>
    if td.expiresAt ≤ now then
      let td2 := TokenData.mk fresh.1 (now + fresh.2 * 1000 - tokenMargin)
      (td2.token, some td2, 1)
    else (td.token, some td, 0)

/-- Phase of one concurrent caller of `TokenManager.getToken` in the
interleaving model: `start` (has not run yet), `awaiting fetched` (it observed
an invalid cache, issued its own `generateToken` call whose response is
`fetched`, and is suspended at the `await`), `done ret` (returned `ret`). -/
inductive CallerPhase where
  | start
  | awaiting (fetched : String × Int)
  | done (ret : String)
deriving DecidableEq, Repr

/-- Shared state of one `TokenManager` instance with several concurrent
callers: the cache, each caller's phase, and how many `generateToken`
exchanges have been issued so far. -/
structure TmSystem where
  cache : Option TokenData
  callers : List CallerPhase
  exchanges : Nat
deriving DecidableEq, Repr

/-- One scheduler step advancing caller `i`.  JavaScript runs each segment
between `await`s atomically: a `start` caller atomically performs the cache
check of `getToken` and, if the cache is missing or expired, starts its own
`auth.generateToken()` call (the `j`-th exchange overall returns `fresh j`)
and suspends; an `awaiting` caller resumes after its exchange, installs the
whole new record, and returns its token. -/
def tmStep (now : Int) (fresh : Nat → String × Int) (s : TmSystem) (i : Nat) : TmSystem :=
  match s.callers.get? i with
  | some .start =>
    match s.cache with
    | some td =>
      if td.expiresAt ≤ now then
        { s with callers := s.callers.set i (.awaiting (fresh s.exchanges)),
                 exchanges := s.exchanges + 1 }
      else { s with callers := s.callers.set i (.done td.token) }
    | none =>
      { s with callers := s.callers.set i (.awaiting (fresh s.exchanges)),
               exchanges := s.exchanges + 1 }
  | some (.awaiting f) =>
    let td := TokenData.mk f.1 (now + f.2 * 1000 - tokenMargin)
    { s with cache := some td, callers := s.callers.set i (.done td.token) }
  | _ => s

/-- Run a schedule (a list of caller indices) over the system state. -/
def tmRun (now : Int) (fresh : Nat → String × Int) (sched : List Nat) (s : TmSystem) : TmSystem :=
  sched.foldl (tmStep now fresh) s

/-- Exchange responses where the `j`-th exchange returns a distinct token
`tok<j>` valid for one hour. -/
def distinctFresh (j : Nat) : String × Int := ("tok" ++ toString j, 3600)

/-- Ten concurrent callers on an empty cache: every caller runs its cache
check before any refresh completes, then each resumes. -/
def tenCallersRun : TmSystem :=
  tmRun 0 distinctFresh
    ((List.range 10) ++ (List.range 10))
    (TmSystem.mk none (List.replicate 10 .start) 0)

/-- Modelled from the spec: the `RateLimiter` class is referenced throughout
the docs (payout, STK push, auth pages) but its implementation is not shown;
spec section 4.2 defines it as a `QuotaWindow`
`{windowStart, windowDurationMs, maxConcurrent, activeCount, admittedInWindow}`
with a window budget, window boundaries aligned to the creation time.
Times are milliseconds as `Nat`. -/
structure RateLimiter where
  maxConcurrent : Nat
  windowMs : Nat
  windowBudget : Nat
  windowStart : Nat
  activeCount : Nat
  admittedInWindow : Nat
deriving DecidableEq, Repr

/-- Modelled from the spec: crossing a window boundary resets the admission
counter and advances `windowStart` to the boundary aligned to the creation
time (`windowStart` moves by a whole number of windows), never retroactively. -/
def advanceWindow (now : Nat) (rl : RateLimiter) : RateLimiter :=
  if rl.windowStart + rl.windowMs ≤ now then
    { rl with
        windowStart := rl.windowStart + rl.windowMs * ((now - rl.windowStart) / rl.windowMs),
        admittedInWindow := 0 }
  else rl

/-- Modelled from the spec: `Acquire` evaluates both admission gates
(concurrency ceiling and window budget) in one critical section; a caller
failing either gate is not admitted and no counter is incremented. -/
def tryAcquire (now : Nat) (rl : RateLimiter) : Bool × RateLimiter :=
  let rl1 := advanceWindow now rl
  if rl1.activeCount < rl1.maxConcurrent ∧ rl1.admittedInWindow < rl1.windowBudget then
    (true, { rl1 with
               activeCount := rl1.activeCount + 1,
               admittedInWindow := rl1.admittedInWindow + 1 })
  else (false, rl1)

/-- Modelled from the spec: `release()` decrements the outstanding count. -/
def rlRelease (rl : RateLimiter) : RateLimiter :=
  { rl with activeCount := rl.activeCount - 1 }

/-- An observable event on one `RateLimiter` instance. -/
inductive RLEvent where
  | acquire (now : Nat)
  | release
deriving DecidableEq, Repr

/-- One event applied to the limiter state. -/
def rlStep (rl : RateLimiter) : RLEvent → RateLimiter
  | .acquire now => (tryAcquire now rl).2
  | .release => rlRelease rl

/-- Run a sequence of acquire/release events over the limiter. -/
def rlRun (events : List RLEvent) (rl : RateLimiter) : RateLimiter :=
  events.foldl rlStep rl

/-- The `PaymentDetails` argument of `validatePaymentDetails` in the
error-handling guide.  The `amount` is an `Int` (the code only compares it
with 0); the remaining fields are strings. -/
structure PaymentDetails where
  amount : Int
  phoneNumber : String
  callbackUrl : String
  reference : String
  description : String
deriving DecidableEq, Repr

/-- The anchored regular expression test on line 150 of the error-handling
guide: the whole string matches `251`, then one of `7`-`9`, then exactly
eight digits. -/
def matchesPhoneRegex (s : String) : Bool :=
  match s.data with
  | '2' :: '5' :: '1' :: d :: rest =>
    ('7' ≤ d && d ≤ '9') && rest.length == 8 && rest.all Char.isDigit
  | _ => false

/-- The check `details.callbackUrl.startsWith('https://')` on line 158 of the
error-handling guide, embedded over the character list of the string. -/
def startsWithHttps (s : String) : Bool :=
  match s.data with
  | 'h' :: 't' :: 't' :: 'p' :: 's' :: ':' :: '/' :: '/' :: _ => true
  | _ => false

/-- `validatePaymentDetails` from the error-handling guide: five checks run in
source order; the first failing check throws its `ValidationError` (modelled
as `some e`); if all pass the function returns (`none`).  The function is a
pure predicate on its argument: it performs no network interaction and
mutates no state, which the embedding reflects by giving it no state to
thread. -/
def validatePaymentDetails (d : PaymentDetails) : Option MpesaError :=
  if d.amount ≤ 0 then
    some (.validationError "Amount must be greater than 0" (some "amount"))
  else if ¬ matchesPhoneRegex d.phoneNumber then
    some (.validationError
      "Invalid phone number format. Must start with 251 and be 12 digits long"
      (some "phoneNumber"))
  else if ¬ startsWithHttps d.callbackUrl then
    some (.validationError "Callback URL must use HTTPS protocol" (some "callbackUrl"))
  else if 12 < d.reference.length then
    some (.validationError "Reference must not exceed 12 characters" (some "reference"))
  else if 13 < d.description.length then
    some (.validationError "Description must not exceed 13 characters" (some "description"))
  else none

/-- A scheme character after the first: ASCII alphanumeric or one of
`+`, `-`, `.` (WHATWG URL grammar). -/
def isSchemeChar (c : Char) : Bool :=
  c.isAlphanum || c == '+' || c == '-' || c == '.'

/-- The URL schemes the WHATWG standard calls special. -/
def specialSchemes : List String := ["http", "https", "ws", "wss", "ftp", "file"]

/-- The parsed-URL view used by `isValidHttpsUrl`: only the `protocol`
property (lowercased scheme plus a trailing colon) is consulted. -/
structure ParsedUrl where
  protocol : String
deriving DecidableEq, Repr

/-- Modelled from the platform `new URL(urlString)` constructor used by the
register-url reference (the docs call into the host's WHATWG URL parser,
which is not part of the repository): a fragment faithful on the behaviours
the docs rely on.  The string must begin with a scheme (an ASCII letter then
scheme characters) followed by `:`; the scheme is lowercased; a special
scheme other than `file` additionally requires a nonempty host after any
leading slashes.  Any other input makes the constructor throw, modelled as
`none`. -/
def parseUrl (s : String) : Option ParsedUrl :=
  let cs := s.data
  let scheme := cs.takeWhile isSchemeChar
  let rest := cs.drop scheme.length
  match scheme, rest with
  | c :: _, ':' :: afterColon =>
    if c.isAlpha then
      let schemeStr := String.mk (scheme.map Char.toLower)
      if specialSchemes.contains schemeStr then
        let hostPart := afterColon.dropWhile (· == '/')
        let host := hostPart.takeWhile (fun ch => ch ≠ '/' && ch ≠ '?' && ch ≠ '#')
        if host.isEmpty && schemeStr ≠ "file" then none
        else some (ParsedUrl.mk (schemeStr ++ ":"))
      else some (ParsedUrl.mk (schemeStr ++ ":"))
    else none
  | _, _ => none

/-- `isValidHttpsUrl` from the register-url API reference: try to construct a
URL and compare its protocol with the literal `https:`; the `catch` arm turns
every parsing failure into `false`. -/
def isValidHttpsUrl (urlString : String) : Bool :=
  match parseUrl urlString with
  | some url => url.protocol == "https:"
  | none => false

/-- Jitter source fixed at one half millisecond, used in witnesses. -/
def halfJitter (_ : Nat) : ℚ := 1 / 2

/-- C8: the error taxonomy is a closed set of exactly six variants over a
common base carrying `message` and `kind` (the class `name`), and each
variant carries exactly its listed structured fields: every value of the
taxonomy has one of the six kinds, the six kinds are pairwise distinct, and
each kind characterizes exactly the values built from that variant's
constructor with its listed fields. -/
theorem error_taxonomy_closed :
    ∀ e : MpesaError,
      e.kind ∈ mpesaErrorKinds ∧
      mpesaErrorKinds.length = 6 ∧ mpesaErrorKinds.Nodup ∧
      ((e.kind = "AuthenticationError") ↔ ∃ m c, e = .authenticationError m c) ∧
      ((e.kind = "NetworkError") ↔ ∃ m, e = .networkError m) ∧
      ((e.kind = "ValidationError") ↔ ∃ m f, e = .validationError m f) ∧
      ((e.kind = "StkPushError") ↔ ∃ m rc mr cr, e = .stkPushError m rc mr cr) ∧
      ((e.kind = "PayoutError") ↔ ∃ m ec rq rc cv, e = .payoutError m ec rq rc cv) ∧
      ((e.kind = "RegisterUrlError") ↔ ∃ m rc sc, e = .registerUrlError m rc sc) := by
  intro e
  cases e <;> simp [MpesaError.kind, mpesaErrorKinds]

/-- C9: `validatePaymentDetails` checks its five rules in a fixed order —
amount > 0, phone-number regex, HTTPS callback URL, reference length at most
12, description length at most 13 — and throws a `ValidationError` whose
`field` names the first violated rule; it throws nothing if and only if all
five rules hold.  The function is modelled as a pure function of its
argument, so it performs no network interaction and no state mutation. -/
theorem validatePaymentDetails_firstViolation :
    ∀ d : PaymentDetails,
      (validatePaymentDetails d = none ↔
        (0 < d.amount ∧ matchesPhoneRegex d.phoneNumber = true ∧
         startsWithHttps d.callbackUrl = true ∧
         d.reference.length ≤ 12 ∧ d.description.length ≤ 13)) ∧
      (d.amount ≤ 0 →
        validatePaymentDetails d
          = some (.validationError "Amount must be greater than 0" (some "amount"))) ∧
      (0 < d.amount → matchesPhoneRegex d.phoneNumber = false →
        validatePaymentDetails d
          = some (.validationError
              "Invalid phone number format. Must start with 251 and be 12 digits long"
              (some "phoneNumber"))) ∧
      (0 < d.amount → matchesPhoneRegex d.phoneNumber = true →
       startsWithHttps d.callbackUrl = false →
        validatePaymentDetails d
          = some (.validationError "Callback URL must use HTTPS protocol" (some "callbackUrl"))) ∧
      (0 < d.amount → matchesPhoneRegex d.phoneNumber = true →
       startsWithHttps d.callbackUrl = true → 12 < d.reference.length →
        validatePaymentDetails d
          = some (.validationError "Reference must not exceed 12 characters" (some "reference"))) ∧
      (0 < d.amount → matchesPhoneRegex d.phoneNumber = true →
       startsWithHttps d.callbackUrl = true → d.reference.length ≤ 12 →
       13 < d.description.length →
        validatePaymentDetails d
          = some (.validationError "Description must not exceed 13 characters" (some "description"))) := by
  intro d
  unfold validatePaymentDetails
  by_cases h1 : d.amount ≤ 0 <;> by_cases h2 : matchesPhoneRegex d.phoneNumber <;>
    by_cases h3 : startsWithHttps d.callbackUrl <;> by_cases h4 : d.reference.length ≤ 12 <;>
    by_cases h5 : d.description.length ≤ 13 <;>
    simp_all
  all_goals split_ifs <;> try simp_all
  all_goals omega

/-- Witness for C9: the theorem applied at concrete inputs — a detail record
violating only the amount rule maps to the `amount` field, and a fully valid
record passes. -/
theorem validatePaymentDetails_firstViolation_witness :
    validatePaymentDetails (PaymentDetails.mk 0 "251712345678" "https://x.com/cb" "ref" "desc")
      = some (.validationError "Amount must be greater than 0" (some "amount")) ∧
    validatePaymentDetails (PaymentDetails.mk 100 "251712345678" "https://x.com/cb" "ref" "desc")
      = none := by
  constructor
  · exact (validatePaymentDetails_firstViolation
      (PaymentDetails.mk 0 "251712345678" "https://x.com/cb" "ref" "desc")).2.1 (by decide)
  · exact (validatePaymentDetails_firstViolation
      (PaymentDetails.mk 100 "251712345678" "https://x.com/cb" "ref" "desc")).1.mpr
      (by refine ⟨by decide, by decide, by decide, by decide, by decide⟩)

/-- C10: `isValidHttpsUrl` is a total boolean function — the `catch` arm maps
every parsing failure to `false` rather than an exception — and it returns
`true` exactly when the string parses as a URL whose `protocol` is `https:`. -/
theorem isValidHttpsUrl_characterization :
    ∀ s : String,
      (isValidHttpsUrl s = true ↔ ∃ u, parseUrl s = some u ∧ u.protocol = "https:") ∧
      (parseUrl s = none → isValidHttpsUrl s = false) := by
  intro s
  cases h : parseUrl s with
  | none => simp [isValidHttpsUrl, h]
  | some u => simp [isValidHttpsUrl, h]

/-- Witness for C10: the theorem applied at a malformed string (no scheme, so
the parser fails and the result is `false`, not an exception) and at a
well-formed HTTPS URL. -/
theorem isValidHttpsUrl_characterization_witness :
    isValidHttpsUrl "not a url" = false ∧ isValidHttpsUrl "https://example.com/pay" = true := by
  constructor
  · exact (isValidHttpsUrl_characterization "not a url").2 (by decide)
  · exact (isValidHttpsUrl_characterization "https://example.com/pay").1.mpr
      ⟨ParsedUrl.mk "https:", by decide, rfl⟩

/-- Every recorded `delay` value of the retry loop equals
`baseDelay * 2 ^ (attempts + i)` for its position `i`, and every recorded
sleep argument equals that delay plus the jitter drawn for that retry. -/
lemma retryGo_trace {α : Type} (op : Nat → Except MpesaError α) (maxRetries baseDelay : Nat)
    (jitter : Nat → ℚ) :
    ∀ remaining attempts : Nat,
      ((retryGo op maxRetries baseDelay jitter attempts remaining).sleeps.length
        = (retryGo op maxRetries baseDelay jitter attempts remaining).delays.length) ∧
      (∀ i, i < (retryGo op maxRetries baseDelay jitter attempts remaining).delays.length →
        (retryGo op maxRetries baseDelay jitter attempts remaining).delays.get? i
          = some (baseDelay * 2 ^ (attempts + i))) ∧
      (∀ i, i < (retryGo op maxRetries baseDelay jitter attempts remaining).sleeps.length →
        (retryGo op maxRetries baseDelay jitter attempts remaining).sleeps.get? i
          = some ((baseDelay * 2 ^ (attempts + i) : ℚ) + jitter (attempts + i + 1))) := by
  intro remaining
  induction remaining with
  | zero => intro attempts; simp [retryGo]
  | succ r ih =>
    intro attempts
    by_cases hlt : attempts < maxRetries
    · cases hop : op attempts with
      | ok a => simp [retryGo, hlt, hop]
      | error e =>
        by_cases h1 : attempts + 1 = maxRetries
        · simp [retryGo, hlt, hop, h1]
        · by_cases hr : isRetryable e
          · obtain ⟨ihl, ihd, ihs⟩ := ih (attempts + 1)
            have hstep : retryGo op maxRetries baseDelay jitter attempts (r + 1)
                = ⟨(retryGo op maxRetries baseDelay jitter (attempts + 1) r).outcome,
                   (retryGo op maxRetries baseDelay jitter (attempts + 1) r).calls + 1,
                   baseDelay * 2 ^ attempts
                     :: (retryGo op maxRetries baseDelay jitter (attempts + 1) r).delays,
                   (((baseDelay * 2 ^ attempts : Nat) : ℚ) + jitter (attempts + 1))
                     :: (retryGo op maxRetries baseDelay jitter (attempts + 1) r).sleeps⟩ := by
              simp [retryGo, hlt, hop, h1, hr]
            simp only [hstep]
            refine ⟨by simpa using ihl, ?_, ?_⟩
            · intro i hi
              cases i with
              | zero => simp
              | succ j =>
                simp only [List.get?_cons_succ]
                have hj : j < (retryGo op maxRetries baseDelay jitter (attempts + 1) r).delays.length := by
                  simpa using hi
                rw [ihd j hj]
                have harith : attempts + 1 + j = attempts + (j + 1) := by omega
                rw [harith]
            · intro i hi
              cases i with
              | zero =>
                simp only [List.get?_cons_zero, Option.some.injEq]
                push_cast
                ring
              | succ j =>
                simp only [List.get?_cons_succ]
                have hj : j < (retryGo op maxRetries baseDelay jitter (attempts + 1) r).sleeps.length := by
                  simpa using hi
                rw [ihs j hj]
                have harith : attempts + 1 + j = attempts + (j + 1) := by omega
                rw [harith]
          · simp [retryGo, hlt, hop, h1, hr]
    · simp [retryGo, if_neg hlt]

/-- Counterexample to C1: `retryWithExponentialBackoff` applies no
`maxDelayMs` cap.  With `baseDelay = 1000` (the documented
`MPESAJS_INITIAL_DELAY_MS` default) and six attempts, the fifth backoff delay
is `1000 * 2 ^ 4 = 16000` ms, which exceeds the documented
`MPESAJS_MAX_DELAY_MS` default of `10000` ms and differs from
`min 10000 16000`, so the delay is not
`min(maxDelayMs, initialDelayMs * backoffFactor ^ (n - 1))`. -/
theorem retryBackoff_no_max_delay_cap :
    (retryWithExponentialBackoff alwaysNetworkFail 6 1000 zeroJitter).delays
      = [1000, 2000, 4000, 8000, 16000] ∧
    10000 < 16000 ∧ min 10000 (1000 * 2 ^ (5 - 1)) ≠ 16000 := by decide

/-- C1 amended: for every retry attempt `n` (1-indexed, at position
`i = n - 1`), the delay computed by `retryWithExponentialBackoff` equals
`baseDelay * 2 ^ (n - 1)` with no `maxDelayMs` cap, and the slept duration is
that delay plus the jitter drawn for that retry; when the jitter source is
bounded by 100 ms (the documented `Math.random() * 100`), each sleep lies in
`[delay, delay + 100)`. -/
theorem retryBackoff_delay_formula :
    ∀ (α : Type) (op : Nat → Except MpesaError α) (maxRetries baseDelay : Nat)
      (jitter : Nat → ℚ),
      (∀ i, i < (retryWithExponentialBackoff op maxRetries baseDelay jitter).delays.length →
        (retryWithExponentialBackoff op maxRetries baseDelay jitter).delays.get? i
          = some (baseDelay * 2 ^ i)) ∧
      (∀ i, i < (retryWithExponentialBackoff op maxRetries baseDelay jitter).sleeps.length →
        (retryWithExponentialBackoff op maxRetries baseDelay jitter).sleeps.get? i
          = some ((baseDelay * 2 ^ i : ℚ) + jitter (i + 1))) ∧
      ((∀ n, 0 ≤ jitter n ∧ jitter n < 100) →
        ∀ i s, (retryWithExponentialBackoff op maxRetries baseDelay jitter).sleeps.get? i
            = some s →
          (baseDelay * 2 ^ i : ℚ) ≤ s ∧ s < (baseDelay * 2 ^ i : ℚ) + 100) := by
  intro α op maxRetries baseDelay jitter
  obtain ⟨hl, hd, hs⟩ := retryGo_trace op maxRetries baseDelay jitter maxRetries 0
  refine ⟨fun i hi => by simpa using hd i hi, fun i hi => by simpa using hs i hi, ?_⟩
  intro hb i s hget
  have hi : i < (retryWithExponentialBackoff op maxRetries baseDelay jitter).sleeps.length := by
    exact List.get?_eq_some.mp hget |>.1
  have := hs i hi
  simp only [retryWithExponentialBackoff] at hget
  rw [this] at hget
  have hsv : s = (baseDelay * 2 ^ (0 + i) : ℚ) + jitter (0 + i + 1) := by
    exact (Option.some.injEq _ _ ▸ hget).symm
  simp only [Nat.zero_add] at hsv
  obtain ⟨hj0, hj1⟩ := hb (i + 1)
  constructor
  · rw [hsv]; linarith
  · rw [hsv]; linarith

/-- Witness for C1 amended: the theorem applied to a concrete run (three
attempts, base delay 1000 ms, constant jitter one half) — position 0 holds
delay 1000 and sleep 1000.5, which lies in `[1000, 1100)`. -/
theorem retryBackoff_delay_formula_witness :
    (retryWithExponentialBackoff alwaysNetworkFail 3 1000 halfJitter).delays.get? 0
      = some (1000 * 2 ^ 0) ∧
    ((1000 * 2 ^ 0 : ℚ) ≤ 1000 + 1 / 2 ∧ (1000 + 1 / 2 : ℚ) < (1000 * 2 ^ 0 : ℚ) + 100) := by
  constructor
  · exact (retryBackoff_delay_formula Unit alwaysNetworkFail 3 1000 halfJitter).1 0 (by decide)
  · exact (retryBackoff_delay_formula Unit alwaysNetworkFail 3 1000 halfJitter).2.2
      (fun n => by norm_num [halfJitter]) 0 (1000 + 1 / 2)
      (by norm_num [retryWithExponentialBackoff, retryGo, alwaysNetworkFail, halfJitter, isRetryable])

/-- Counterexample to C2: with `maxRetries = 3`, an operation that fails on
every attempt is invoked exactly 3 times — not 4 — because `attempts` is
incremented before the `attempts === maxRetries` check, so `maxRetries`
bounds the TOTAL number of attempts; the rethrown error is the 3rd one. -/
theorem retry_total_attempts_counterexample :
    (retryWithExponentialBackoff alwaysNetworkFail 3 1000 zeroJitter).calls = 3 ∧
    (retryWithExponentialBackoff alwaysNetworkFail 3 1000 zeroJitter).calls ≠ 4 ∧
    (retryWithExponentialBackoff alwaysNetworkFail 3 1000 zeroJitter).outcome
      = .err (.networkError ("timeout " ++ toString 2)) := by decide

/-- C2 amended: `retryWithExponentialBackoff` performs at most `maxRetries`
TOTAL attempts (the first attempt counts toward `maxRetries`, not in addition
to it); with `maxRetries = 3`, an operation that fails retryably on every
attempt is invoked exactly 3 times, and the error surfaced to the caller is
the 3rd (last) observed error itself, unmodified and not wrapped. -/
theorem retry_exhaustion_returns_last_error :
    ∀ (e : Nat → MpesaError) (baseDelay : Nat) (jitter : Nat → ℚ),
      (∀ k, isRetryable (e k) = true) →
      (retryWithExponentialBackoff
          (fun k => (Except.error (e k) : Except MpesaError Unit)) 3 baseDelay jitter).calls
        = 3 ∧
      (retryWithExponentialBackoff
          (fun k => (Except.error (e k) : Except MpesaError Unit)) 3 baseDelay jitter).outcome
        = .err (e 2) := by
  intro e baseDelay jitter h
  constructor <;> simp [retryWithExponentialBackoff, retryGo, h]

/-- Witness for C2 amended: the theorem applied to a concrete always-failing
retryable operation. -/
theorem retry_exhaustion_returns_last_error_witness :
    (retryWithExponentialBackoff
        (fun k => (Except.error (MpesaError.networkError (toString k)) : Except MpesaError Unit))
        3 1000 zeroJitter).calls = 3 ∧
    (retryWithExponentialBackoff
        (fun k => (Except.error (MpesaError.networkError (toString k)) : Except MpesaError Unit))
        3 1000 zeroJitter).outcome = .err (.networkError (toString 2)) :=
  retry_exhaustion_returns_last_error (fun k => .networkError (toString k)) 1000 zeroJitter
    (fun _ => rfl)

/-- C3: the default retry condition holds exactly for `NetworkError`s and
`StkPushError`s whose `responseCode` is `17`; an operation whose first
failure is Validation-classified or Authentication-classified is propagated
immediately: one invocation, no backoff delay, no sleep, and the error
surfaces unmodified. -/
theorem retry_terminal_errors_not_retried :
    (∀ e : MpesaError, isRetryable e = true ↔
       ((∃ m, e = .networkError m) ∨ ∃ m a b, e = .stkPushError m (some "17") a b)) ∧
    (∀ (α : Type) (op : Nat → Except MpesaError α) (maxRetries baseDelay : Nat)
       (jitter : Nat → ℚ) (e : MpesaError),
      1 ≤ maxRetries → op 0 = Except.error e →
      (e.kind = "ValidationError" ∨ e.kind = "AuthenticationError") →
      retryWithExponentialBackoff op maxRetries baseDelay jitter
        = ⟨.err e, 1, [], []⟩) := by
  constructor
  · intro e
    cases e with
    | networkError m => simp [isRetryable]
    | stkPushError m rc a b => cases rc <;> simp [isRetryable]
    | authenticationError m c => simp [isRetryable]
    | validationError m f => simp [isRetryable]
    | payoutError m a b c d => simp [isRetryable]
    | registerUrlError m a b => simp [isRetryable]
  · intro α op maxRetries baseDelay jitter e hmr hop hkind
    have hret : isRetryable e = false := by
      cases e <;> simp_all [MpesaError.kind, isRetryable]
    obtain ⟨m, rfl⟩ : ∃ m, maxRetries = m + 1 := ⟨maxRetries - 1, by omega⟩
    by_cases h1 : (1 : Nat) = m + 1
    · simp [retryWithExponentialBackoff, retryGo, hop, ← h1]
    · simp [retryWithExponentialBackoff, retryGo, hop, h1, hret]

/-- Witness for C3: the theorem applied to an operation whose first attempt
throws a `ValidationError`, with `maxRetries = 3`: one call, the error
propagated verbatim, no delays and no sleeps. -/
theorem retry_terminal_errors_not_retried_witness :
    isRetryable (.validationError "Amount must be greater than 0" (some "amount")) = false ∧
    retryWithExponentialBackoff
        (fun _ => (Except.error (MpesaError.validationError "Amount must be greater than 0" (some "amount"))
          : Except MpesaError Unit)) 3 1000 zeroJitter
      = ⟨.err (.validationError "Amount must be greater than 0" (some "amount")), 1, [], []⟩ := by
  constructor
  · decide
  · exact retry_terminal_errors_not_retried.2 Unit _ 3 1000 zeroJitter _
      (by decide) rfl (Or.inl rfl)

/-- C4: if a cached token exists and `now` is strictly before the stored
`expiresAt` (which the install sites set to the real expiry minus the 60 s
margin), `getToken` returns the cached value with no `generateToken` call and
no cache mutation; a cached token whose real expiry is 30 s away (stored
`expiresAt = now + 30000 - 60000`, i.e. expiring in 30 s with a 60 s margin)
triggers exactly one refresh call, returning the fresh token. -/
theorem token_cache_fast_path_and_margin_refresh :
    ∀ (now : Int) (fresh : String × Int) (td : TokenData),
      (now < td.expiresAt →
        getToken now fresh (some td) = (td.token, some td, 0)) ∧
      ((getToken now fresh (some (TokenData.mk td.token (now + 30000 - tokenMargin)))).2.2 = 1 ∧
       (getToken now fresh (some (TokenData.mk td.token (now + 30000 - tokenMargin)))).1
         = fresh.1) := by
  intro now fresh td
  have hc : now + 30000 - tokenMargin ≤ now := by simp [tokenMargin]
  refine ⟨fun h => ?_, ?_, ?_⟩
  · simp [getToken, not_le.mpr h]
  · simp [getToken, hc]
  · simp [getToken, hc]

/-- Witness for C4: a cached token valid past `now` is returned unchanged with
zero refreshes; a cached token 30 s from real expiry is refreshed once. -/
theorem token_cache_fast_path_and_margin_refresh_witness :
    getToken 1000000 ("new", 3600) (some (TokenData.mk "cached" 1000005))
      = ("cached", some (TokenData.mk "cached" 1000005), 0) ∧
    (getToken 1000000 ("new", 3600)
        (some (TokenData.mk "cached" (1000000 + 30000 - tokenMargin)))).2.2 = 1 := by
  constructor
  · exact (token_cache_fast_path_and_margin_refresh 1000000 ("new", 3600)
      (TokenData.mk "cached" 1000005)).1 (by norm_num)
  · exact (token_cache_fast_path_and_margin_refresh 1000000 ("new", 3600)
      (TokenData.mk "cached" 0)).2.1

/-- Counterexample to C5: a successful refresh whose `expiresIn` is 0 seconds
(a degenerate provider response the code does not guard against) installs and
returns a token whose stored `expiresAt` (and even real expiry
`now + expiresIn * 1000`) is not strictly greater than `now`, so the
invariant `expiresAt > now` on every returned token does not hold
unconditionally. -/
theorem token_expiry_invariant_counterexample :
    (getToken 1000000 ("t", 0) none).1 = "t" ∧
    (getToken 1000000 ("t", 0) none).2.1
      = some (TokenData.mk "t" (1000000 + 0 * 1000 - tokenMargin)) ∧
    ¬ ((1000000 : Int) < 1000000 + 0 * 1000 - tokenMargin) ∧
    ¬ ((1000000 : Int) < 1000000 + 0 * 1000) := by decide

/-- C5 amended: provided every refresh response's `expiresIn` (in seconds)
exceeds the 60 s margin — the documented token lifetime is 3600 s — every
token value returned by `getToken` is the value of the cached record and has
stored `expiresAt` strictly greater than `now`; and the cached record is
mutated only by a successful refresh, which replaces it whole (otherwise the
cache is returned unchanged with zero refresh calls). -/
theorem token_expiry_invariant_amended :
    ∀ (now : Int) (fresh : String × Int) (st : Option TokenData),
      tokenMargin < fresh.2 * 1000 →
      (∃ td, (getToken now fresh st).2.1 = some td ∧
        (getToken now fresh st).1 = td.token ∧ now < td.expiresAt) ∧
      (((getToken now fresh st).2.1 = st ∧ (getToken now fresh st).2.2 = 0) ∨
        ((getToken now fresh st).2.2 = 1 ∧
         (getToken now fresh st).2.1
           = some (TokenData.mk fresh.1 (now + fresh.2 * 1000 - tokenMargin)))) := by
  intro now fresh st h
  cases st with
  | none =>
    refine ⟨⟨TokenData.mk fresh.1 (now + fresh.2 * 1000 - tokenMargin), ?_, ?_, ?_⟩, ?_⟩
    · simp [getToken]
    · simp [getToken]
    · simp [tokenMargin] at h ⊢; omega
    · right; exact ⟨rfl, rfl⟩
  | some td =>
    by_cases hc : td.expiresAt ≤ now
    · refine ⟨⟨TokenData.mk fresh.1 (now + fresh.2 * 1000 - tokenMargin), ?_, ?_, ?_⟩, ?_⟩
      · simp [getToken, hc]
      · simp [getToken, hc]
      · simp [tokenMargin] at h ⊢; omega
      · right
        constructor
        · simp [getToken, hc]
        · simp [getToken, hc]
    · refine ⟨⟨td, ?_, ?_, ?_⟩, ?_⟩
      · simp [getToken, hc]
      · simp [getToken, hc]
      · omega
      · left
        constructor
        · simp [getToken, hc]
        · simp [getToken, hc]

/-- Witness for C5 amended: a refresh with the documented `expiresIn = 3600`
from an empty cache returns a token whose stored expiry exceeds `now`, and
the cache transition is a whole-record replacement counted as one refresh. -/
theorem token_expiry_invariant_amended_witness :
    tokenMargin < (("t", (3600 : Int)) : String × Int).2 * 1000 ∧
    (∃ td, (getToken 0 ("t", 3600) none).2.1 = some td ∧
      (getToken 0 ("t", 3600) none).1 = td.token ∧ (0 : Int) < td.expiresAt) := by
  refine ⟨by decide, ?_⟩
  exact (token_expiry_invariant_amended 0 ("t", 3600) none (by decide)).1

/-- Counterexample to C6: the documented `TokenManager` has no single-flight
deduplication.  Ten concurrent callers that all run their cache check (the
code before the `await`) against the empty cache before any refresh resolves
each issue their own `generateToken` exchange: 10 exchanges, not 1, and the
callers receive the distinct tokens of their own exchanges. -/
theorem single_flight_counterexample :
    tenCallersRun.exchanges = 10 ∧
    tenCallersRun.exchanges ≠ 1 ∧
    tenCallersRun.callers.get? 0 = some (.done "tok0") ∧
    tenCallersRun.callers.get? 1 = some (.done "tok1") ∧
    ("tok0" : String) ≠ "tok1" := by decide

/-- After the first `k` of `n` concurrent callers have run their cache checks
against an empty cache, `k` exchanges have been issued and those `k` callers
are each awaiting their own exchange. -/
lemma tmRun_checks (now : Int) (fresh : Nat → String × Int) (n : Nat) :
    ∀ k, k ≤ n →
      tmRun now fresh (List.range k) (TmSystem.mk none (List.replicate n .start) 0)
        = TmSystem.mk none
            ((List.range n).map
              (fun i => if i < k then CallerPhase.awaiting (fresh i) else .start))
            k := by
  intro k
  induction k with
  | zero =>
    intro _
    simp [tmRun]
  | succ k ih =>
    intro hk
    rw [List.range_succ]
    simp only [tmRun, List.foldl_append, List.foldl_cons, List.foldl_nil]
    rw [show List.foldl (tmStep now fresh) (TmSystem.mk none (List.replicate n .start) 0)
          (List.range k) = tmRun now fresh (List.range k)
            (TmSystem.mk none (List.replicate n .start) 0) from rfl]
    rw [ih (by omega)]
    have hget : ((List.range n).map
        (fun i => if i < k then CallerPhase.awaiting (fresh i) else .start)).get? k
        = some .start := by
      rw [List.get?_map]
      rw [List.get?_range (by omega : k < n)]
      simp
    simp only [tmStep, hget]
    refine congrArg₂ (TmSystem.mk none) ?_ rfl
    apply List.ext_get?
    intro j
    rw [List.get?_eq_getElem?, List.get?_eq_getElem?]
    rw [List.getElem?_set]
    by_cases hj : k = j
    · subst hj
      rw [if_pos rfl]
      rw [if_pos (by simp; omega)]
      rw [List.getElem?_map, List.getElem?_range (by omega : k < n)]
      simp
    · rw [if_neg hj]
      by_cases hjn : j < n
      · rw [List.getElem?_map, List.getElem?_map, List.getElem?_range hjn]
        simp only [Option.map_some']
        have hpq : j < k ↔ j < k + 1 := by omega
        simp [hpq]
      · have hnone : (List.range n)[j]? = none := List.getElem?_eq_none (by simp; omega)
        rw [List.getElem?_map, List.getElem?_map, hnone]
        rfl

/-- C6 amended: the documented `TokenManager` performs no single-flight
deduplication — for every `n`, when `n` concurrent callers each run their
cache check against an empty cache before any refresh resolves, exactly `n`
underlying `generateToken` exchanges are issued, one per caller (so 10
concurrent callers issue 10 exchanges, not 1, and callers receive the tokens
of their own exchanges). -/
theorem tokenManager_no_single_flight :
    ∀ (n : Nat) (now : Int) (fresh : Nat → String × Int),
      (tmRun now fresh (List.range n)
        (TmSystem.mk none (List.replicate n .start) 0)).exchanges = n := by
  intro n now fresh
  rw [tmRun_checks now fresh n n le_rfl]

/-- One rate-limiter event cannot raise `activeCount` above `maxConcurrent`,
and it never changes `maxConcurrent`. -/
lemma rlStep_invariant (rl : RateLimiter) (ev : RLEvent)
    (h : rl.activeCount ≤ rl.maxConcurrent) :
    (rlStep rl ev).maxConcurrent = rl.maxConcurrent ∧
    (rlStep rl ev).activeCount ≤ rl.maxConcurrent := by
  cases ev with
  | release =>
    refine ⟨rfl, ?_⟩
    simp only [rlStep, rlRelease]
    omega
  | acquire now =>
    simp only [rlStep, tryAcquire]
    have hadv : (advanceWindow now rl).activeCount = rl.activeCount ∧
        (advanceWindow now rl).maxConcurrent = rl.maxConcurrent := by
      unfold advanceWindow
      split_ifs <;> exact ⟨rfl, rfl⟩
    split_ifs with hg
    · refine ⟨hadv.2, ?_⟩
      simp only
      omega
    · refine ⟨hadv.2, ?_⟩
      change (advanceWindow now rl).activeCount ≤ rl.maxConcurrent
      rw [hadv.1]
      exact h

/-- C7: over every sequence of acquire/release events starting from a state
satisfying `activeCount ≤ maxConcurrent` (e.g. a freshly created limiter),
the number of outstanding acquisitions never exceeds `maxConcurrent`; and the
per-window admission counter is reset exactly when the window boundary is
crossed — an `advanceWindow` before the boundary is the identity, and one at
or after the boundary zeroes `admittedInWindow` and moves `windowStart`
forward by a whole number of windows so that `now` lies in the new window. -/
theorem rateLimiter_invariants :
    (∀ (events : List RLEvent) (rl : RateLimiter),
      rl.activeCount ≤ rl.maxConcurrent →
      (rlRun events rl).maxConcurrent = rl.maxConcurrent ∧
      (rlRun events rl).activeCount ≤ rl.maxConcurrent) ∧
    (∀ (now : Nat) (rl : RateLimiter),
      (now < rl.windowStart + rl.windowMs → advanceWindow now rl = rl) ∧
      (0 < rl.windowMs → rl.windowStart + rl.windowMs ≤ now →
        (advanceWindow now rl).admittedInWindow = 0 ∧
        (advanceWindow now rl).windowStart ≤ now ∧
        now < (advanceWindow now rl).windowStart + rl.windowMs ∧
        rl.windowMs ∣ (advanceWindow now rl).windowStart - rl.windowStart)) := by
  constructor
  · intro events
    induction events with
    | nil => intro rl h; exact ⟨rfl, h⟩
    | cons ev rest ih =>
      intro rl h
      obtain ⟨hmc, hac⟩ := rlStep_invariant rl ev h
      have := ih (rlStep rl ev) (by omega)
      simp only [rlRun, List.foldl_cons] at *
      refine ⟨by rw [this.1, hmc], by have h2 := this.2; omega⟩
  · intro now rl
    constructor
    · intro h
      unfold advanceWindow
      rw [if_neg (by omega)]
    · intro hpos hcross
      unfold advanceWindow
      rw [if_pos hcross]
      have hws : rl.windowStart ≤ now := by omega
      have hdm := Nat.div_add_mod (now - rl.windowStart) rl.windowMs
      have hmlt : (now - rl.windowStart) % rl.windowMs < rl.windowMs :=
        Nat.mod_lt _ hpos
      refine ⟨rfl, ?_, ?_, ?_⟩
      · simp only
        omega
      · simp only
        omega
      · simp only
        exact ⟨(now - rl.windowStart) / rl.windowMs, by omega⟩

/-- Witness for C7: the theorem applied to a concrete limiter
(`maxConcurrent = 2`, 1000 ms window, budget 5) and a concrete event trace of
three acquires and one release, plus a concrete boundary crossing at 2500 ms. -/
theorem rateLimiter_invariants_witness :
    (rlRun [.acquire 0, .acquire 1, .acquire 2, .release]
        (RateLimiter.mk 2 1000 5 0 0 0)).activeCount ≤ 2 ∧
    (advanceWindow 2500 (RateLimiter.mk 2 1000 5 0 1 3)).admittedInWindow = 0 := by
  constructor
  · exact (rateLimiter_invariants.1 [.acquire 0, .acquire 1, .acquire 2, .release]
      (RateLimiter.mk 2 1000 5 0 0 0) (by decide)).2
  · exact ((rateLimiter_invariants.2 2500 (RateLimiter.mk 2 1000 5 0 1 3)).2
      (by decide) (by decide)).1
